import Mathlib

/-!
Verification of the NoSql-to-MySql enrollment duplicate scanner
(`src/app.js`) against its natural-language specification.

The script loads a JSON export of the `takes` (enrollment) table, filters
the records by a target student identifier using JavaScript strict
equality (`entry.ID === targetID`), tabulates the matched records'
`course_id` values in a plain object (`courseCount[course] =
(courseCount[course] || 0) + 1`), extracts the courses counted more than
once via `Object.entries(courseCount).filter(([_, count]) => count > 1)`,
and logs a report.

The embedding below models JSON field values, enrollment records, the
filter, the tabulation object (its own properties as an
insertion-ordered association list of string keys, since JavaScript
property keys are strings and object properties remember creation order,
together with the property lookup falling through to `Object.prototype`:
a course key that names a prototype member starts from the truthy
inherited function, so the script concatenates strings instead of
counting, and assigning to the key `__proto__` hits the inherited
accessor and creates no own property at all), the ECMAScript enumeration
order of `Object.entries` (array-index keys in ascending numeric order
first, then the remaining string keys in creation order), and the
console output of the script as a list of structured lines.
-/

namespace Scanner

/-- A JSON scalar value as it can appear in a record field of the input
file. Strict equality (`===`) between values of different constructors is
always false, which the derived decidable equality reflects. -/
inductive JsonValue where
  | jstr (s : String)
  | jnum (n : Int)
  | jbool (b : Bool)
  | jnull
deriving DecidableEq, Repr

/-- An enrollment record: one element of the `takes` array of the input
file, with the field names of the pre-encryption schema
(`ID`, `course_id`, `sec_id`, `semester`, `year`, `grade`).
A field that is absent in the JSON object is `none` (JavaScript
`undefined`). -/
structure Record where
  ID : Option JsonValue := none
  course_id : Option JsonValue := none
  sec_id : Option JsonValue := none
  semester : Option JsonValue := none
  year : Option JsonValue := none
  grade : Option JsonValue := none
deriving DecidableEq, Repr

/-- JavaScript strict equality `entry.ID === targetID` where `targetID`
is a string: true exactly when the field is present and is the identical
string. A number, boolean, null or absent field is never `===` to a
string. -/
def idMatches (v : Option JsonValue) (targetID : String) : Bool :=
  decide (v = some (JsonValue.jstr targetID))

/-- Line 11 of `src/app.js`:
`const results = data.takes.filter(entry => entry.ID === targetID);` -/
def findRecords (records : List Record) (targetID : String) : List Record :=
  records.filter (fun entry => idMatches entry.ID targetID)

/-- JavaScript property-key coercion `ToPropertyKey` applied to a record
field value: keys of an object are strings, so `obj[course]` coerces
`course` to a string. An absent field (`undefined`) becomes the key
`"undefined"`, a number its decimal string, a boolean `"true"`/`"false"`,
null the key `"null"`. -/
def jsKey (v : Option JsonValue) : String :=
  match v with
  | none => "undefined"
  | some (JsonValue.jstr s) => s
  | some (JsonValue.jnum n) => toString n
  | some (JsonValue.jbool b) => cond b "true" "false"
  | some JsonValue.jnull => "null"

/-- A value stored in an own property of the `courseCount` object.
Counting stores numbers, but when a course key collides with an
`Object.prototype` member the inherited value is truthy and
`(courseCount[course] || 0) + 1` becomes string concatenation after
`ToPrimitive`, so own properties can also hold strings. -/
inductive JsVal where
  | num (n : Nat)
  | str (s : String)
deriving DecidableEq, Repr

/-- The own property keys of `Object.prototype`: the object created on
line 17 by `courseCount = ...` is empty but inherits these, so the read
`courseCount[course]` finds them. All hold functions except `__proto__`,
an accessor whose read yields `Object.prototype` itself and whose setter
ignores a non-object right-hand side. None is enumerable, so none ever
shows up in `Object.entries` unless shadowed by an own property. -/
def protoKeys : List String :=
  ["constructor", "__defineGetter__", "__defineSetter__", "hasOwnProperty",
   "__lookupGetter__", "__lookupSetter__", "isPrototypeOf",
   "propertyIsEnumerable", "toString", "valueOf", "__proto__",
   "toLocaleString"]

/-- `ToPrimitive` of the value inherited from `Object.prototype` at one
of its keys: the source text of the native function as the engine prints
it (the `constructor` key holds the `Object` function, so its text names
`Object`), and the tag string of `Object.prototype` itself for the
`__proto__` accessor. Only the fact that these strings contain non-digit
characters matters to the script's behaviour. -/
def protoRepr (k : String) : String :=
  if k = "__proto__" then "[object Object]"
  else if k = "constructor" then "function Object() \x7b [native code] \x7d"
  else "function " ++ k ++ "() \x7b [native code] \x7d"

/-- JavaScript truthiness of a stored value: the number `0` and the
empty string are falsy, everything else here is truthy. -/
def jsTruthy : JsVal → Bool
  | JsVal.num n => decide (n ≠ 0)
  | JsVal.str s => decide (s ≠ "")

/-- `+ 1` on a stored value: numeric increment on a number, string
concatenation on a string. -/
def jsPlus1 : JsVal → JsVal
  | JsVal.num n => JsVal.num (n + 1)
  | JsVal.str s => JsVal.str (s ++ "1")

/-- Own-property lookup: the value stored under a key, if any. -/
def lookupA {α : Type} (m : List (String × α)) (k : String) : Option α :=
  match m with
  | [] => none
  | (k', v) :: rest => if k' = k then some v else lookupA rest k

/-- Ordinary property assignment `courseCount[k] = v`: an existing own
property keeps its position and receives the new value; a new own
property is appended in creation order. (The `__proto__` key never
reaches this: see `bump`.) -/
def setKey {α : Type} (m : List (String × α)) (k : String) (v : α) :
    List (String × α) :=
  match m with
  | [] => [(k, v)]
  | (k', v') :: rest =>
    if k' = k then (k', v) :: rest else (k', v') :: setKey rest k v

/-- The value of `(courseCount[k] || 0) + 1`: an own property's value is
incremented (or restarted from `0 + 1` if falsy); with no own property, a
key of `Object.prototype` finds the truthy inherited value, whose `+ 1`
is string concatenation with its `ToPrimitive` text; any other key reads
`undefined`, which is falsy, giving `0 + 1 = 1`. -/
def bumpedValue (m : List (String × JsVal)) (k : String) : JsVal :=
  match lookupA m k with
  | some v => if jsTruthy v then jsPlus1 v else JsVal.num 1
  | none =>
    if k ∈ protoKeys then JsVal.str (protoRepr k ++ "1")
    else JsVal.num 1

/-- One step of the tabulation (line 20 of `src/app.js`):
`courseCount[course] = (courseCount[course] || 0) + 1;`.
Assigning to the key `__proto__` invokes the inherited accessor's
setter, which ignores a number or string right-hand side, so no own
property is created and the object is unchanged; every other key gets an
ordinary own property with the bumped value. -/
def bump (m : List (String × JsVal)) (k : String) : List (String × JsVal) :=
  if k = "__proto__" then m else setKey m k (bumpedValue m k)

/-- Lines 17-21 of `src/app.js`: build `courseCount` by iterating over the
matched records (`results.forEach(entry => ...)`). -/
def countByCourse (matched : List Record) : List (String × JsVal) :=
  matched.foldl (fun m entry => bump m (jsKey entry.course_id)) []

/-- Numeric value of a string of decimal digits (used to order
array-index property keys). -/
def keyNumAux (n : Nat) : List Char → Nat
  | [] => n
  | c :: cs => keyNumAux (n * 10 + (c.toNat - 48)) cs

/-- Numeric value of a property key made of decimal digits. -/
def keyNum (s : String) : Nat :=
  keyNumAux 0 s.data

/-- ECMAScript array-index test for a property key: a canonical string of
decimal digits (no leading zero except `"0"` itself) whose numeric value
is strictly below 2^32 - 1. `Object.entries` enumerates these keys first,
in ascending numeric order; every other key stays in creation order. -/
def isArrayIndex (s : String) : Bool :=
  match s.data with
  | [] => false
  | c :: cs =>
    (c :: cs).all Char.isDigit
      && (decide (cs = []) || decide (c ≠ '0'))
      && decide (keyNumAux 0 (c :: cs) < 4294967295)

/-- Insert an entry into a list of entries sorted by ascending numeric
key value. -/
def insertAsc {α : Type} (p : String × α) : List (String × α) → List (String × α)
  | [] => [p]
  | q :: rest =>
    if keyNum p.1 ≤ keyNum q.1 then p :: q :: rest else q :: insertAsc p rest

/-- Insertion sort of entries by ascending numeric key value. -/
def sortAsc {α : Type} : List (String × α) → List (String × α)
  | [] => []
  | p :: rest => insertAsc p (sortAsc rest)

/-- `Object.entries(courseCount)`: own enumerable properties, array-index
keys first in ascending numeric order, then the remaining keys in
creation order (ECMAScript `OrdinaryOwnPropertyKeys`). -/
def jsEntries {α : Type} (m : List (String × α)) : List (String × α) :=
  sortAsc (m.filter (fun p => isArrayIndex p.1))
    ++ m.filter (fun p => !isArrayIndex p.1)

/-- The predicate `count > 1` of line 23 on a stored value: plain
numeric comparison on a number; a string is first converted with
`Number`, so a nonempty all-digit string compares by its value and any
other string converts to `NaN` (or `0` for the empty string), making the
comparison false — in particular false for every concatenated
function-source string a prototype collision produces. -/
def jsGtOne : JsVal → Bool
  | JsVal.num n => decide (1 < n)
  | JsVal.str s =>
    decide (s.data ≠ []) && s.data.all Char.isDigit
      && decide (1 < keyNumAux 0 s.data)

/-- Line 23 of `src/app.js`:
`const duplicates = Object.entries(courseCount).filter(([_, count]) => count > 1);` -/
def detectDuplicates (courseCount : List (String × JsVal)) :
    List (String × JsVal) :=
  (jsEntries courseCount).filter (fun p => jsGtOne p.2)

/-- The whole filter-count-detect pipeline on an input sequence and a
target identifier: the matched records, the course-count mapping, and the
duplicate list. -/
def pipeline (records : List Record) (targetID : String) :
    List Record × List (String × JsVal) × List (String × JsVal) :=
  let results := findRecords records targetID
  let courseCount := countByCourse results
  (results, courseCount, detectDuplicates courseCount)

/-- One console line produced by the script. Exact text formatting is not
a compatibility surface, so each `console.log` call is modelled as a
structured line carrying the data it prints. -/
inductive OutputLine where
  | found (n : Nat) (id : String)
  | records (rs : List Record)
  | dupHeader
  | dupLine (c : String) (v : JsVal)
  | noDuplicates
  | noRecords (id : String)
deriving DecidableEq, Repr

/-- The in-memory state the script acts on: the `takes` array it has
loaded and the console output produced so far. -/
structure ScanState where
  takes : List Record
  output : List OutputLine
deriving DecidableEq, Repr

/-- `console.log`: appends one line to the console output. -/
def log (s : ScanState) (line : OutputLine) : ScanState :=
  { s with output := s.output ++ [line] }

/-- Lines 11-36 of `src/app.js`: compute `results`, then either report the
count and content of the matches followed by the duplicate findings (or a
no-duplicates message), or report that no records were found. The state is
threaded explicitly so that mutation (or its absence) is visible. -/
def runScanner (s : ScanState) (targetID : String) : ScanState :=
  let results := findRecords s.takes targetID
  if 0 < results.length then
    let s1 := log s (OutputLine.found results.length targetID)
    let s2 := log s1 (OutputLine.records results)
    let courseCount := countByCourse results
    let duplicates := detectDuplicates courseCount
    if 0 < duplicates.length then
      let s3 := log s2 OutputLine.dupHeader
      duplicates.foldl (fun st p => log st (OutputLine.dupLine p.1 p.2)) s3
    else
      log s2 OutputLine.noDuplicates
  else
    log s (OutputLine.noRecords targetID)

/-- The outcome of loading and parsing `app.json` (line 4 of
`src/app.js`), before the scanner proper runs: the file may fail to parse
as JSON, parse to an object without a usable `takes` array, or yield the
`takes` array of enrollment records. -/
inductive LoadInput where
  | malformed
  | missingTakes
  | withTakes (takes : List Record)
deriving DecidableEq, Repr

/-- True when the load outcome is not a usable `takes` array. -/
def isBadInput : LoadInput → Bool
  | LoadInput.malformed => true
  | LoadInput.missingTakes => true
  | LoadInput.withTakes _ => false

/-- A JavaScript exception the script can die with: `JSON.parse` throws a
`SyntaxError` on malformed input, and `data.takes.filter` throws a
`TypeError` when `data.takes` is `undefined`. -/
inductive JsError where
  | syntaxError
  | typeError
deriving DecidableEq, Repr

/-- The whole script (`src/app.js`) from the load on: the hard-coded
target is `"8912"`; there is no try/catch, so a parse failure propagates
as an uncaught exception and no report output is produced. -/
def appMain (inp : LoadInput) : Except JsError (List OutputLine) :=
  match inp with
  | LoadInput.malformed => Except.error JsError.syntaxError
  | LoadInput.missingTakes => Except.error JsError.typeError
  | LoadInput.withTakes ts =>
    Except.ok (runScanner { takes := ts, output := [] } "8912").output

/-- Number of records of a sequence whose `course_id` coerces to the
property key `c`. -/
def countWithKey (matched : List Record) (c : String) : Nat :=
  matched.countP (fun r => decide (jsKey r.course_id = c))

/-- Number of records of a sequence whose `course_id` is present and is
the string `c` (the spec's "records whose course_id equals c"). -/
def countWithCourse (matched : List Record) (c : String) : Nat :=
  matched.countP (fun r => decide (r.course_id = some (JsonValue.jstr c)))

/-- Number of records of a sequence whose `course_id` field is absent. -/
def countAbsentCourse (matched : List Record) : Nat :=
  matched.countP (fun r => decide (r.course_id = none))

/-- True when the record's `course_id` field is present and is a string. -/
def hasStringCourse (r : Record) : Bool :=
  match r.course_id with
  | some (JsonValue.jstr _) => true
  | _ => false

/-- The keys of a list in order of first occurrence, each kept once. -/
def dedupFirst : List String → List String
  | [] => []
  | k :: rest => k :: (dedupFirst rest).filter (fun c => decide (c ≠ k))

/-! ### Association-list lemmas for the own properties of `courseCount` -/

theorem lookupA_eq_none_iff {α : Type} (m : List (String × α)) (c : String) :
    lookupA m c = none ↔ c ∉ m.map Prod.fst := by
  induction m with
  | nil => simp [lookupA]
  | cons p rest ih =>
    obtain ⟨k', v⟩ := p
    simp only [lookupA, List.map_cons, List.mem_cons]
    by_cases h : k' = c
    · subst h; simp
    · simp [h, Ne.symm h, ih]

theorem setKey_keys {α : Type} (m : List (String × α)) (k : String) (v : α) :
    (setKey m k v).map Prod.fst =
      if k ∈ m.map Prod.fst then m.map Prod.fst
      else m.map Prod.fst ++ [k] := by
  induction m with
  | nil => simp [setKey]
  | cons p rest ih =>
    obtain ⟨k', v'⟩ := p
    by_cases h : k' = k
    · simp [setKey, h]
    · have hne : ¬ k = k' := fun hk => h hk.symm
      by_cases hmem : k ∈ rest.map Prod.fst <;>
        simp [setKey, h, hne, hmem, ih]

theorem lookupA_setKey {α : Type} (m : List (String × α)) (k c : String)
    (v : α) :
    lookupA (setKey m k v) c = if c = k then some v else lookupA m c := by
  induction m with
  | nil =>
    by_cases h : c = k
    · subst h; simp [setKey, lookupA]
    · simp [setKey, lookupA, h, Ne.symm h]
  | cons p rest ih =>
    obtain ⟨k', v'⟩ := p
    by_cases h : k' = k
    · subst h
      by_cases hc : c = k'
      · subst hc; simp [setKey, lookupA]
      · simp [setKey, lookupA, hc, Ne.symm hc]
    · by_cases hc : k' = c
      · subst hc
        simp [setKey, lookupA, h]
      · simp [setKey, lookupA, h, hc, ih]

theorem bump_keys (m : List (String × JsVal)) (k : String) :
    (bump m k).map Prod.fst =
      if k = "__proto__" then m.map Prod.fst
      else if k ∈ m.map Prod.fst then m.map Prod.fst
      else m.map Prod.fst ++ [k] := by
  rw [bump]
  by_cases hp : k = "__proto__"
  · rw [if_pos hp, if_pos hp]
  · rw [if_neg hp, if_neg hp, setKey_keys]

theorem nodup_keys_bump (m : List (String × JsVal)) (k : String)
    (h : (m.map Prod.fst).Nodup) : ((bump m k).map Prod.fst).Nodup := by
  rw [bump_keys]
  by_cases hp : k = "__proto__"
  · rwa [if_pos hp]
  · rw [if_neg hp]
    by_cases hmem : k ∈ m.map Prod.fst
    · rwa [if_pos hmem]
    · rw [if_neg hmem, List.nodup_append]
      exact ⟨h, List.nodup_singleton k, by simpa using hmem⟩

theorem mem_iff_lookupA {α : Type} (m : List (String × α)) (c : String)
    (v : α) (h : (m.map Prod.fst).Nodup) :
    (c, v) ∈ m ↔ lookupA m c = some v := by
  induction m with
  | nil => simp [lookupA]
  | cons p rest ih =>
    obtain ⟨k', v'⟩ := p
    rw [List.map_cons, List.nodup_cons] at h
    by_cases hc : k' = c
    · subst hc
      have hlk : lookupA ((k', v') :: rest) k' = some v' := by simp [lookupA]
      rw [hlk, List.mem_cons]
      constructor
      · rintro (hp | hp)
        · simp_all
        · exact absurd (List.mem_map_of_mem Prod.fst hp) h.1
      · rintro hp
        rw [Option.some.injEq] at hp
        exact Or.inl (by rw [hp])
    · simp only [lookupA, if_neg hc, List.mem_cons]
      rw [ih h.2]
      constructor
      · rintro (hp | hp)
        · exact absurd (congrArg Prod.fst hp).symm hc
        · exact hp
      · exact fun hp => Or.inr hp

theorem bumpedValue_of_some (m : List (String × JsVal)) (k : String)
    (v : JsVal) (h : lookupA m k = some v) :
    bumpedValue m k = if jsTruthy v then jsPlus1 v else JsVal.num 1 := by
  unfold bumpedValue
  rw [h]

theorem bumpedValue_of_none (m : List (String × JsVal)) (k : String)
    (h : lookupA m k = none) :
    bumpedValue m k =
      if k ∈ protoKeys then JsVal.str (protoRepr k ++ "1")
      else JsVal.num 1 := by
  unfold bumpedValue
  rw [h]

theorem lookupA_bump_ne (m : List (String × JsVal)) (k c : String)
    (hne : c ≠ k) : lookupA (bump m k) c = lookupA m c := by
  rw [bump]
  by_cases hp : k = "__proto__"
  · rw [if_pos hp]
  · rw [if_neg hp, lookupA_setKey, if_neg hne]

theorem lookupA_bump_self (m : List (String × JsVal)) (k : String)
    (hk : k ∉ protoKeys) :
    lookupA (bump m k) k = some (bumpedValue m k) := by
  have hp : ¬ k = "__proto__" := by
    intro h
    exact hk (by rw [h]; decide)
  rw [bump, if_neg hp, lookupA_setKey, if_pos rfl]

/-! ### The `courseCount` fold, one key at a time -/

theorem foldBump_lookup_num (l : List Record) :
    ∀ (m : List (String × JsVal)) (c : String), c ∉ protoKeys →
      ∀ j : Nat, 0 < j → lookupA m c = some (JsVal.num j) →
      lookupA (l.foldl (fun m entry => bump m (jsKey entry.course_id)) m) c
        = some (JsVal.num (j + countWithKey l c)) := by
  induction l with
  | nil =>
    intro m c hc j hj hm
    simpa [countWithKey] using hm
  | cons e rest ih =>
    intro m c hc j hj hm
    rw [List.foldl_cons]
    by_cases hkey : jsKey e.course_id = c
    · subst hkey
      have hbv : bumpedValue m (jsKey e.course_id) = JsVal.num (j + 1) := by
        rw [bumpedValue_of_some m _ _ hm]
        have ht : jsTruthy (JsVal.num j) = true :=
          decide_eq_true (Nat.pos_iff_ne_zero.mp hj)
        rw [if_pos ht]
        rfl
      have hlb : lookupA (bump m (jsKey e.course_id)) (jsKey e.course_id)
          = some (JsVal.num (j + 1)) := by
        rw [lookupA_bump_self m _ hc, hbv]
      rw [ih (bump m (jsKey e.course_id)) _ hc (j + 1) (Nat.succ_pos j) hlb]
      have hcount : countWithKey (e :: rest) (jsKey e.course_id)
          = countWithKey rest (jsKey e.course_id) + 1 := by
        rw [countWithKey, countWithKey, List.countP_cons]
        simp
      rw [hcount]
      simp only [Option.some.injEq, JsVal.num.injEq]
      omega
    · have hlb : lookupA (bump m (jsKey e.course_id)) c
          = some (JsVal.num j) := by
        rw [lookupA_bump_ne m _ c (fun hcc => hkey hcc.symm), hm]
      rw [ih (bump m (jsKey e.course_id)) c hc j hj hlb]
      have hcount : countWithKey (e :: rest) c = countWithKey rest c := by
        rw [countWithKey, countWithKey, List.countP_cons]
        simp [hkey]
      rw [hcount]

theorem foldBump_lookup_none (l : List Record) :
    ∀ (m : List (String × JsVal)) (c : String), c ∉ protoKeys →
      lookupA m c = none →
      lookupA (l.foldl (fun m entry => bump m (jsKey entry.course_id)) m) c
        = if 0 < countWithKey l c then some (JsVal.num (countWithKey l c))
          else none := by
  induction l with
  | nil =>
    intro m c hc hm
    simpa [countWithKey] using hm
  | cons e rest ih =>
    intro m c hc hm
    rw [List.foldl_cons]
    by_cases hkey : jsKey e.course_id = c
    · subst hkey
      have hbv : bumpedValue m (jsKey e.course_id) = JsVal.num 1 := by
        rw [bumpedValue_of_none m _ hm, if_neg hc]
      have hlb : lookupA (bump m (jsKey e.course_id)) (jsKey e.course_id)
          = some (JsVal.num 1) := by
        rw [lookupA_bump_self m _ hc, hbv]
      rw [foldBump_lookup_num rest (bump m (jsKey e.course_id)) _ hc 1
        Nat.one_pos hlb]
      have hcount : countWithKey (e :: rest) (jsKey e.course_id)
          = countWithKey rest (jsKey e.course_id) + 1 := by
        rw [countWithKey, countWithKey, List.countP_cons]
        simp
      rw [hcount, if_pos (Nat.succ_pos _)]
      simp only [Option.some.injEq, JsVal.num.injEq]
      omega
    · have hlb : lookupA (bump m (jsKey e.course_id)) c = none := by
        rw [lookupA_bump_ne m _ c (fun hcc => hkey hcc.symm), hm]
      rw [ih (bump m (jsKey e.course_id)) c hc hlb]
      have hcount : countWithKey (e :: rest) c = countWithKey rest c := by
        rw [countWithKey, countWithKey, List.countP_cons]
        simp [hkey]
      rw [hcount]

theorem nodup_keys_countByCourse_go (l : List Record) :
    ∀ (m : List (String × JsVal)), (m.map Prod.fst).Nodup →
      ((l.foldl (fun m entry => bump m (jsKey entry.course_id)) m).map
        Prod.fst).Nodup := by
  induction l with
  | nil => intro m hm; simpa using hm
  | cons e rest ih =>
    intro m hm
    exact ih _ (nodup_keys_bump m _ hm)

theorem nodup_keys_countByCourse (matched : List Record) :
    ((countByCourse matched).map Prod.fst).Nodup :=
  nodup_keys_countByCourse_go matched [] (by simp)

theorem lookupA_countByCourse (matched : List Record) (c : String)
    (hc : c ∉ protoKeys) :
    lookupA (countByCourse matched) c =
      if 0 < countWithKey matched c then
        some (JsVal.num (countWithKey matched c))
      else none :=
  foldBump_lookup_none matched [] c hc rfl

/-! ### `Object.entries` enumeration -/

theorem mem_insertAsc {α : Type} (p q : String × α) (l : List (String × α)) :
    q ∈ insertAsc p l ↔ q = p ∨ q ∈ l := by
  induction l with
  | nil => simp [insertAsc]
  | cons r rest ih =>
    by_cases h : keyNum p.1 ≤ keyNum r.1
    · simp [insertAsc, h, List.mem_cons]
    · simp only [insertAsc, if_neg h, List.mem_cons, ih]
      tauto

theorem mem_sortAsc {α : Type} (q : String × α) (l : List (String × α)) :
    q ∈ sortAsc l ↔ q ∈ l := by
  induction l with
  | nil => simp [sortAsc]
  | cons r rest ih => simp [sortAsc, mem_insertAsc, ih]

theorem mem_jsEntries {α : Type} (q : String × α) (m : List (String × α)) :
    q ∈ jsEntries m ↔ q ∈ m := by
  simp only [jsEntries, List.mem_append, mem_sortAsc, List.mem_filter]
  by_cases h : isArrayIndex q.1 <;> simp [h]

/-- The central membership characterisation of line 23 of `src/app.js`
for a key that does not collide with `Object.prototype`: `duplicates`
holds `(c, n)` exactly when `n` is the number of matched records whose
`course_id` coerces to the key `c` and `n > 1`. -/
theorem mem_detectDuplicates_iff_nonproto (matched : List Record)
    (c : String) (hc : c ∉ protoKeys) (n : Nat) :
    (c, JsVal.num n) ∈ detectDuplicates (countByCourse matched)
      ↔ countWithKey matched c = n ∧ 1 < n := by
  rw [detectDuplicates, List.mem_filter, mem_jsEntries,
    mem_iff_lookupA _ _ _ (nodup_keys_countByCourse matched),
    lookupA_countByCourse matched c hc]
  by_cases h0 : 0 < countWithKey matched c
  · rw [if_pos h0]
    constructor
    · rintro ⟨h1, h2⟩
      rw [Option.some.injEq, JsVal.num.injEq] at h1
      refine ⟨h1, ?_⟩
      have h2' : jsGtOne (JsVal.num n) = true := h2
      simpa [jsGtOne] using h2'
    · rintro ⟨h1, h2⟩
      subst h1
      refine ⟨rfl, ?_⟩
      show jsGtOne (JsVal.num (countWithKey matched c)) = true
      simpa [jsGtOne] using h2
  · rw [if_neg h0]
    constructor
    · rintro ⟨h1, -⟩
      exact absurd h1 (by simp)
    · rintro ⟨h1, h2⟩
      exfalso
      omega

/-! ### Key order of the `courseCount` object -/

theorem foldBump_keys_subset (l : List Record) :
    ∀ (m : List (String × JsVal)) (c : String),
      c ∈ (l.foldl (fun m entry => bump m (jsKey entry.course_id)) m).map
        Prod.fst →
      c ∈ m.map Prod.fst ∨ ∃ r ∈ l, jsKey r.course_id = c := by
  induction l with
  | nil => intro m c h; exact Or.inl h
  | cons e rest ih =>
    intro m c h
    rw [List.foldl_cons] at h
    rcases ih (bump m (jsKey e.course_id)) c h with hm | hr
    · rw [bump_keys] at hm
      by_cases hp : jsKey e.course_id = "__proto__"
      · rw [if_pos hp] at hm
        exact Or.inl hm
      · rw [if_neg hp] at hm
        by_cases hmem : jsKey e.course_id ∈ m.map Prod.fst
        · rw [if_pos hmem] at hm
          exact Or.inl hm
        · rw [if_neg hmem] at hm
          rcases List.mem_append.mp hm with h1 | h1
          · exact Or.inl h1
          · right
            exact ⟨e, List.mem_cons_self e rest,
              (List.mem_singleton.mp h1).symm⟩
    · right
      obtain ⟨r, hr1, hr2⟩ := hr
      exact ⟨r, List.mem_cons_of_mem e hr1, hr2⟩

theorem foldBump_keys_nonproto :
    ∀ l : List Record, (∀ r ∈ l, jsKey r.course_id ∉ protoKeys) →
    ∀ m : List (String × JsVal),
      (l.foldl (fun m entry => bump m (jsKey entry.course_id)) m).map
        Prod.fst
        = m.map Prod.fst
          ++ (dedupFirst (l.map (fun r => jsKey r.course_id))).filter
              (fun c => decide (c ∉ m.map Prod.fst)) := by
  intro l
  induction l with
  | nil => intro hl m; simp [dedupFirst]
  | cons e rest ih =>
    intro hl m
    have he : jsKey e.course_id ∉ protoKeys := hl e (List.mem_cons_self e rest)
    have hp : ¬ jsKey e.course_id = "__proto__" := by
      intro hq
      exact he (by rw [hq]; decide)
    have hrest : ∀ r ∈ rest, jsKey r.course_id ∉ protoKeys :=
      fun r hr => hl r (List.mem_cons_of_mem e hr)
    have hbk : (bump m (jsKey e.course_id)).map Prod.fst =
        if jsKey e.course_id ∈ m.map Prod.fst then m.map Prod.fst
        else m.map Prod.fst ++ [jsKey e.course_id] := by
      rw [bump_keys, if_neg hp]
    rw [List.foldl_cons, ih hrest (bump m (jsKey e.course_id)), hbk,
      List.map_cons, dedupFirst]
    by_cases hmem : jsKey e.course_id ∈ m.map Prod.fst
    · rw [if_pos hmem, List.filter_cons]
      have hb : ¬ (decide (jsKey e.course_id ∉ m.map Prod.fst) = true) := by
        simp only [decide_eq_true_eq]
        exact fun hn => hn hmem
      rw [if_neg hb, List.filter_filter]
      congr 1
      apply List.filter_congr
      intro x _
      by_cases hx : x = jsKey e.course_id
      · subst hx; simp [hmem]
      · simp [hx]
    · rw [if_neg hmem, List.filter_cons]
      have hb : decide (jsKey e.course_id ∉ m.map Prod.fst) = true := by
        simp only [decide_eq_true_eq]
        exact hmem
      rw [if_pos hb, List.filter_filter, List.append_assoc,
        List.singleton_append]
      congr 2
      apply List.filter_congr
      intro x _
      by_cases hx : x = jsKey e.course_id
      · subst hx; simp
      · by_cases hxm : x ∈ m.map Prod.fst <;> simp [hx, hxm]

/-- When no matched course key collides with `Object.prototype`, the keys
of the `courseCount` object, in property-creation order, are the matched
records' course keys in order of first occurrence. -/
theorem countByCourse_keys_nonproto (matched : List Record)
    (h : ∀ r ∈ matched, jsKey r.course_id ∉ protoKeys) :
    (countByCourse matched).map Prod.fst
      = dedupFirst (matched.map (fun r => jsKey r.course_id)) := by
  have hgo : (countByCourse matched).map Prod.fst
      = ([] : List (String × JsVal)).map Prod.fst
        ++ (dedupFirst (matched.map (fun r => jsKey r.course_id))).filter
            (fun c => decide (c ∉ ([] : List (String × JsVal)).map Prod.fst)) :=
    foldBump_keys_nonproto matched h []
  simpa using hgo

theorem mem_dedupFirst (c : String) :
    ∀ l : List String, c ∈ dedupFirst l ↔ c ∈ l := by
  intro l
  induction l with
  | nil => simp [dedupFirst]
  | cons k rest ih =>
    simp only [dedupFirst, List.mem_cons, List.mem_filter, ih]
    by_cases h : c = k <;> simp [h]

theorem jsEntries_eq_self {α : Type} (m : List (String × α))
    (h : ∀ p ∈ m, isArrayIndex p.1 = false) : jsEntries m = m := by
  have h1 : m.filter (fun p => isArrayIndex p.1) = [] := by
    rw [List.filter_eq_nil_iff]
    intro p hp
    simp [h p hp]
  have h2 : m.filter (fun p => !isArrayIndex p.1) = m := by
    rw [List.filter_eq_self]
    intro p hp
    simp [h p hp]
  rw [jsEntries, h1, h2, sortAsc, List.nil_append]

/-- When no matched course key collides with `Object.prototype`, every
own property of `courseCount` holds the numeric count of its key. -/
theorem mem_countByCourse_val (matched : List Record)
    (h : ∀ r ∈ matched, jsKey r.course_id ∉ protoKeys)
    (p : String × JsVal) (hp : p ∈ countByCourse matched) :
    p.2 = JsVal.num (countWithKey matched p.1) := by
  have hmem : p.1 ∈ (countByCourse matched).map Prod.fst :=
    List.mem_map_of_mem Prod.fst hp
  have hc : p.1 ∉ protoKeys := by
    rcases foldBump_keys_subset matched [] p.1 hmem with h0 | ⟨r, hr, hrk⟩
    · exact absurd h0 (by simp)
    · rw [← hrk]
      exact h r hr
  have hlook : lookupA (countByCourse matched) p.1 = some p.2 :=
    (mem_iff_lookupA (countByCourse matched) p.1 p.2
      (nodup_keys_countByCourse matched)).mp hp
  rw [lookupA_countByCourse matched p.1 hc] at hlook
  by_cases h0 : 0 < countWithKey matched p.1
  · rw [if_pos h0, Option.some.injEq] at hlook
    exact hlook.symm
  · rw [if_neg h0] at hlook
    exact absurd hlook (by simp)

theorem map_fst_filter_gtOne (f : String → Nat) :
    ∀ m : List (String × JsVal), (∀ p ∈ m, p.2 = JsVal.num (f p.1)) →
      (m.filter (fun p => jsGtOne p.2)).map Prod.fst
        = (m.map Prod.fst).filter (fun c => decide (1 < f c)) := by
  intro m
  induction m with
  | nil => simp
  | cons p rest ih =>
    intro h
    have hp : p.2 = JsVal.num (f p.1) := h p (List.mem_cons_self p rest)
    have hrest := ih (fun q hq => h q (List.mem_cons_of_mem p hq))
    rw [List.filter_cons, List.map_cons, List.filter_cons]
    by_cases h1 : 1 < f p.1
    · have hb1 : jsGtOne p.2 = true := by
        rw [hp]
        exact decide_eq_true h1
      have hb2 : decide (1 < f p.1) = true := decide_eq_true h1
      rw [if_pos hb1, if_pos hb2, List.map_cons, hrest]
    · have hb1 : ¬ (jsGtOne p.2 = true) := by
        rw [hp]
        simpa [jsGtOne] using h1
      have hb2 : ¬ (decide (1 < f p.1) = true) := by simpa using h1
      rw [if_neg hb1, if_neg hb2, hrest]

/-! ### The report produced by the script -/

/-- The console lines the script emits for a given `takes` array and
target identifier, as a pure function (specification vocabulary for the
reporting theorems; `runScanner_output` proves the stateful code emits
exactly these lines). -/
def scanReport (records : List Record) (targetID : String) : List OutputLine :=
  let results := findRecords records targetID
  if results = [] then [OutputLine.noRecords targetID]
  else
    [OutputLine.found results.length targetID, OutputLine.records results]
      ++ (let duplicates := detectDuplicates (countByCourse results)
          if duplicates = [] then [OutputLine.noDuplicates]
          else OutputLine.dupHeader
            :: duplicates.map (fun p => OutputLine.dupLine p.1 p.2))

theorem foldl_log_takes (dups : List (String × JsVal)) :
    ∀ s : ScanState,
      (dups.foldl (fun st p => log st (OutputLine.dupLine p.1 p.2)) s).takes
        = s.takes := by
  induction dups with
  | nil => intro s; rfl
  | cons p rest ih =>
    intro s
    rw [List.foldl_cons, ih, log]

theorem foldl_log_output (dups : List (String × JsVal)) :
    ∀ s : ScanState,
      (dups.foldl (fun st p => log st (OutputLine.dupLine p.1 p.2)) s).output
        = s.output ++ dups.map (fun p => OutputLine.dupLine p.1 p.2) := by
  induction dups with
  | nil => intro s; simp
  | cons p rest ih =>
    intro s
    rw [List.foldl_cons, ih, List.map_cons]
    simp [log, List.append_assoc]

/-- The scanner never touches the loaded `takes` array: the state after
the run holds the same records. -/
theorem runScanner_takes_eq (s : ScanState) (targetID : String) :
    (runScanner s targetID).takes = s.takes := by
  rw [runScanner]
  by_cases h1 : 0 < (findRecords s.takes targetID).length
  · rw [if_pos h1]
    by_cases h2 :
        0 < (detectDuplicates (countByCourse (findRecords s.takes targetID))).length
    · rw [if_pos h2, foldl_log_takes]
      simp [log]
    · rw [if_neg h2]
      simp [log]
  · rw [if_neg h1]
    simp [log]

/-- The scanner appends exactly the report lines of `scanReport` to the
console output. -/
theorem runScanner_output (s : ScanState) (targetID : String) :
    (runScanner s targetID).output = s.output ++ scanReport s.takes targetID := by
  rw [runScanner, scanReport]
  by_cases h1 : findRecords s.takes targetID = []
  · rw [if_pos h1, if_neg (by simp [h1]), log]
  · have h1' : 0 < (findRecords s.takes targetID).length := List.length_pos.mpr h1
    rw [if_neg h1, if_pos h1']
    by_cases h2 :
        detectDuplicates (countByCourse (findRecords s.takes targetID)) = []
    · have h2' :
          ¬ 0 < (detectDuplicates (countByCourse (findRecords s.takes targetID))).length := by
        simp [h2]
      rw [if_pos h2, if_neg h2']
      simp [log, List.append_assoc]
    · have h2' :
          0 < (detectDuplicates (countByCourse (findRecords s.takes targetID))).length :=
        List.length_pos.mpr h2
      rw [if_neg h2, if_pos h2', foldl_log_output]
      simp [log, List.append_assoc]

/-! ### Concrete inputs used by witnesses and counterexamples -/

/-- Three records of student 8912 with a duplicated course, as in the
spec's worked example. -/
def exDup : List Record :=
  [{ ID := some (JsonValue.jstr "8912"), course_id := some (JsonValue.jstr "CS101") },
   { ID := some (JsonValue.jstr "8912"), course_id := some (JsonValue.jstr "CS101") },
   { ID := some (JsonValue.jstr "8912"), course_id := some (JsonValue.jstr "CS202") }]

/-- A single record of another student. -/
def exOther : List Record :=
  [{ ID := some (JsonValue.jstr "1111"), course_id := some (JsonValue.jstr "CS101") }]

/-- A matched set whose course identifiers are array-index-like strings,
each duplicated, with `"2"` first occurring before `"1"`. -/
def exNumericCourses : List Record :=
  [{ course_id := some (JsonValue.jstr "2") },
   { course_id := some (JsonValue.jstr "2") },
   { course_id := some (JsonValue.jstr "1") },
   { course_id := some (JsonValue.jstr "1") }]

/-- Two matched records whose `course_id` field is absent. -/
def exAbsentCourses : List Record :=
  [{ ID := some (JsonValue.jstr "8912") },
   { ID := some (JsonValue.jstr "8912") }]

/-- Two matched records whose course identifier is the
`Object.prototype` member name `"toString"`. -/
def exProtoCourses : List Record :=
  [{ course_id := some (JsonValue.jstr "toString") },
   { course_id := some (JsonValue.jstr "toString") }]

/-- Membership characterisation of the filter on line 11 of
`src/app.js`. -/
theorem mem_findRecords_iff (records : List Record) (targetID : String)
    (r : Record) :
    r ∈ findRecords records targetID
      ↔ r ∈ records ∧ r.ID = some (JsonValue.jstr targetID) := by
  rw [findRecords, List.mem_filter, idMatches]
  simp only [decide_eq_true_eq]

/-! ### Claims -/

/-- C1: for every input sequence and target identifier, `findRecords`
returns only records whose `ID` field equals the target string, and
returns every record of the input whose `ID` field equals it — no false
positives and no false negatives. -/
theorem C1_findRecords_sound_complete (records : List Record)
    (targetID : String) (r : Record) :
    r ∈ findRecords records targetID
      ↔ r ∈ records ∧ r.ID = some (JsonValue.jstr targetID) :=
  mem_findRecords_iff records targetID r

/-- C2, counterexample: for two matched records whose `course_id` is the
string `"toString"`, the count of records with that `course_id` is 2 and
2 > 1, yet the script returns no entry for it: line 20's read of
`courseCount["toString"]` finds the truthy function inherited from
`Object.prototype`, so `(... || 0) + 1` concatenates strings, and line
23's `count > 1` is false on the resulting non-numeric string. -/
theorem C2_counterexample :
    ¬ (("toString", JsVal.num 2) ∈ detectDuplicates (countByCourse exProtoCourses)
        ↔ (2 = countWithCourse exProtoCourses "toString" ∧ 1 < 2)) := by
  decide

/-- C2, amended: for a matched sequence of enrollment records whose
`course_id`s are strings (as the data model prescribes) that are not
`Object.prototype` member names, `detectDuplicates` returns an entry
`(c, n)` iff `n` is the number of matched records whose `course_id`
equals `c` and `n > 1`. -/
theorem C2_detectDuplicates_iff_count (matched : List Record) (c : String)
    (n : Nat) (h : ∀ r ∈ matched, hasStringCourse r = true)
    (hp : ∀ r ∈ matched, jsKey r.course_id ∉ protoKeys) :
    (c, JsVal.num n) ∈ detectDuplicates (countByCourse matched)
      ↔ n = countWithCourse matched c ∧ 1 < n := by
  by_cases hc : c ∈ protoKeys
  · constructor
    · intro hmem
      exfalso
      rw [detectDuplicates, List.mem_filter, mem_jsEntries] at hmem
      have hkey : c ∈ (countByCourse matched).map Prod.fst :=
        List.mem_map_of_mem Prod.fst hmem.1
      rcases foldBump_keys_subset matched [] c hkey with h0 | ⟨r, hr, hrk⟩
      · exact absurd h0 (by simp)
      · exact hp r hr (by rw [hrk]; exact hc)
    · rintro ⟨h1, h2⟩
      exfalso
      have hz : countWithCourse matched c = 0 := by
        rw [countWithCourse, List.countP_eq_zero]
        intro r hr
        simp only [decide_eq_true_eq]
        intro hcontra
        refine hp r hr ?_
        rw [hcontra]
        exact hc
      omega
  · rw [mem_detectDuplicates_iff_nonproto matched c hc n]
    have hcount : countWithKey matched c = countWithCourse matched c := by
      rw [countWithKey, countWithCourse,
        List.countP_eq_length_filter, List.countP_eq_length_filter]
      congr 1
      apply List.filter_congr
      intro r hr
      have hs := h r hr
      rcases hval : r.course_id with _ | v
      · rw [hasStringCourse, hval] at hs
        exact absurd hs (by simp)
      · rcases v with s | n' | b | _
        · by_cases hsc : s = c
          · subst hsc; simp [jsKey]
          · simp [jsKey, hsc]
        all_goals
          (rw [hasStringCourse, hval] at hs; exact absurd hs (by simp))
    rw [hcount]
    constructor
    · rintro ⟨h1, h2⟩; exact ⟨h1.symm, h2⟩
    · rintro ⟨h1, h2⟩; exact ⟨h1.symm, h2⟩

/-- Witness for the amended C2 at the spec's worked example. -/
theorem C2_witness :
    ("CS101", JsVal.num 2) ∈ detectDuplicates (countByCourse exDup) :=
  (C2_detectDuplicates_iff_count exDup "CS101" 2 (by decide) (by decide)).mpr
    (by decide)

/-- C3: `findRecords` returns a sub-sequence of the input in the input's
order, and the empty sequence (a normal value, not an absent one) when no
record matches. -/
theorem C3_sublist_and_empty (records : List Record) (targetID : String) :
    List.Sublist (findRecords records targetID) records
      ∧ ((∀ r ∈ records, r.ID ≠ some (JsonValue.jstr targetID)) →
          findRecords records targetID = []) := by
  constructor
  · exact List.filter_sublist records
  · intro h
    rw [findRecords, List.filter_eq_nil_iff]
    intro r hr
    simp [idMatches, h r hr]

/-- Witness for C3 on an input with no matching record. -/
theorem C3_witness :
    List.Sublist (findRecords exOther "9999") exOther
      ∧ findRecords exOther "9999" = [] :=
  ⟨(C3_sublist_and_empty exOther "9999").1,
   (C3_sublist_and_empty exOther "9999").2 (by decide)⟩

/-- C4: membership in `findRecords` is decided by exact string equality
on the `ID` field: a record whose `ID` is the identical string is kept, a
record whose `ID` is a different string, a number, or absent is never
kept. -/
theorem C4_exact_string_equality (records : List Record)
    (targetID s : String) (n : Int) (r : Record) (hr : r ∈ records) :
    (r.ID = some (JsonValue.jstr targetID) → r ∈ findRecords records targetID)
      ∧ (r.ID = some (JsonValue.jstr s) → s ≠ targetID →
          r ∉ findRecords records targetID)
      ∧ (r.ID = some (JsonValue.jnum n) → r ∉ findRecords records targetID)
      ∧ (r.ID = none → r ∉ findRecords records targetID) := by
  refine ⟨?_, ?_, ?_, ?_⟩
  · intro hid
    exact (mem_findRecords_iff records targetID r).mpr ⟨hr, hid⟩
  · intro hid hne hmem
    rcases (mem_findRecords_iff records targetID r).mp hmem with ⟨-, hid2⟩
    rw [hid] at hid2
    exact hne (by simpa using hid2)
  · intro hid hmem
    rcases (mem_findRecords_iff records targetID r).mp hmem with ⟨-, hid2⟩
    rw [hid] at hid2
    exact absurd hid2 (by simp)
  · intro hid hmem
    rcases (mem_findRecords_iff records targetID r).mp hmem with ⟨-, hid2⟩
    rw [hid] at hid2
    exact absurd hid2 (by simp)

/-- Witness for C4: the matching record of the worked example is kept. -/
theorem C4_witness :
    ({ ID := some (JsonValue.jstr "1111"),
       course_id := some (JsonValue.jstr "CS101") } : Record)
      ∈ findRecords exOther "1111" :=
  (C4_exact_string_equality exOther "1111" "1111" 0 _ (by decide)).1 (by decide)

/-- C5, counterexample: with array-index-like course identifiers
(`"2"` twice, then `"1"` twice) the duplicate pairs come out in ascending
numeric key order (`"1"` before `"2"`), not in insertion order of first
occurrence (`"2"` before `"1"`), because `Object.entries` enumerates
array-index property keys first in ascending numeric order. -/
theorem C5_counterexample :
    ¬ ((detectDuplicates (countByCourse exNumericCourses)).map Prod.fst
        = (dedupFirst (exNumericCourses.map (fun r => jsKey r.course_id))).filter
            (fun c => decide (1 < countWithKey exNumericCourses c))) := by
  decide

/-- C5, amended: the duplicate pairs appear in `Object.entries` order —
array-index-like keys first in ascending numeric order, then the rest in
insertion order of first occurrence — and a course key naming an
`Object.prototype` member is not reported at all (its tabulated value is
a concatenated string, see C2's counterexample). In particular, whenever
no matched record's course key is an array-index-like string or a
prototype member name (as with schema-style identifiers such as
`"CS101"`), the pairs appear exactly in insertion order of the first
occurrence of each duplicated `course_id` in the matched sequence. -/
theorem C5_insertion_order (matched : List Record)
    (h : ∀ r ∈ matched, isArrayIndex (jsKey r.course_id) = false
          ∧ jsKey r.course_id ∉ protoKeys) :
    (detectDuplicates (countByCourse matched)).map Prod.fst
      = (dedupFirst (matched.map (fun r => jsKey r.course_id))).filter
          (fun c => decide (1 < countWithKey matched c)) := by
  have hp : ∀ r ∈ matched, jsKey r.course_id ∉ protoKeys :=
    fun r hr => (h r hr).2
  have hkeys := countByCourse_keys_nonproto matched hp
  have hni : ∀ p ∈ countByCourse matched, isArrayIndex p.1 = false := by
    intro p hq
    have hmem : p.1 ∈ (countByCourse matched).map Prod.fst :=
      List.mem_map_of_mem Prod.fst hq
    rw [hkeys, mem_dedupFirst] at hmem
    rcases List.mem_map.mp hmem with ⟨r, hr, hrk⟩
    rw [← hrk]
    exact (h r hr).1
  rw [detectDuplicates, jsEntries_eq_self _ hni,
    map_fst_filter_gtOne (fun c => countWithKey matched c) _
      (fun p hq => mem_countByCourse_val matched hp p hq),
    hkeys]

/-- Witness for the amended C5 at the spec's worked example. -/
theorem C5_witness :
    (detectDuplicates (countByCourse exDup)).map Prod.fst
      = (dedupFirst (exDup.map (fun r => jsKey r.course_id))).filter
          (fun c => decide (1 < countWithKey exDup c)) :=
  C5_insertion_order exDup (by decide)

/-- C6: on zero matches the script reports only the no-records line;
otherwise it reports the match count and the matched records, followed by
exactly one of the duplicate list (header plus one line per duplicate
course with its count) or the no-duplicates line. -/
theorem C6_reporting (records : List Record) (targetID : String) :
    (findRecords records targetID = [] →
      (runScanner { takes := records, output := [] } targetID).output
        = [OutputLine.noRecords targetID])
    ∧ (findRecords records targetID ≠ [] →
      (runScanner { takes := records, output := [] } targetID).output
        = [OutputLine.found (findRecords records targetID).length targetID,
           OutputLine.records (findRecords records targetID)]
          ++ (if detectDuplicates (countByCourse (findRecords records targetID)) = []
              then [OutputLine.noDuplicates]
              else OutputLine.dupHeader
                :: (detectDuplicates (countByCourse (findRecords records targetID))).map
                    (fun p => OutputLine.dupLine p.1 p.2))) := by
  constructor
  · intro h
    rw [runScanner_output]
    simp only [scanReport]
    rw [if_pos h, List.nil_append]
  · intro h
    rw [runScanner_output]
    simp only [scanReport]
    rw [if_neg h, List.nil_append]

/-- Witness for C6 at the spec's worked example (three matches, one
duplicated course). -/
theorem C6_witness :
    (runScanner { takes := exDup, output := [] } "8912").output
      = [OutputLine.found (findRecords exDup "8912").length "8912",
         OutputLine.records (findRecords exDup "8912")]
        ++ (if detectDuplicates (countByCourse (findRecords exDup "8912")) = []
            then [OutputLine.noDuplicates]
            else OutputLine.dupHeader
              :: (detectDuplicates (countByCourse (findRecords exDup "8912"))).map
                  (fun p => OutputLine.dupLine p.1 p.2)) :=
  (C6_reporting exDup "8912").2 (by decide)

/-- C7: when the input source does not parse to an object with a `takes`
array — malformed JSON (`JSON.parse` throws a `SyntaxError`) or a parsed
object without `takes` (`data.takes.filter` throws a `TypeError`) — the
script fails fast with an error naming the cause and produces no report
output. -/
theorem C7_fail_fast (inp : LoadInput) (h : isBadInput inp = true) :
    appMain inp
      = Except.error
          (match inp with
           | LoadInput.malformed => JsError.syntaxError
           | _ => JsError.typeError) := by
  cases inp with
  | malformed => rfl
  | missingTakes => rfl
  | withTakes ts => exact absurd h (by simp [isBadInput])

/-- Witness for C7 on malformed input. -/
theorem C7_witness : appMain LoadInput.malformed = Except.error JsError.syntaxError :=
  C7_fail_fast LoadInput.malformed (by decide)

/-- C8: the pipeline is deterministic and stateless — running the scanner
and then running the pipeline (or the scanner) again on the state it left
behind gives exactly the results of the first run. -/
theorem C8_idempotent (s : ScanState) (targetID : String) :
    pipeline (runScanner s targetID).takes targetID = pipeline s.takes targetID
      ∧ (runScanner { takes := (runScanner s targetID).takes, output := [] }
          targetID).output
        = (runScanner { takes := s.takes, output := [] } targetID).output := by
  rw [runScanner_takes_eq]
  exact ⟨rfl, rfl⟩

/-- C9: the scanner mutates nothing: after the full run the loaded record
sequence (and hence every record in it) is exactly the input. -/
theorem C9_no_mutation (s : ScanState) (targetID : String) :
    (runScanner s targetID).takes = s.takes :=
  runScanner_takes_eq s targetID

/-- C10: every matched record with an absent `course_id` is tabulated
under the single key `"undefined"` (the string form of the missing
value), so when at least two such records exist, `detectDuplicates`
reports a duplicate course with identifier `"undefined"`. -/
theorem C10_undefined_key (matched : List Record)
    (h : 2 ≤ countAbsentCourse matched) :
    jsKey none = "undefined"
      ∧ countAbsentCourse matched ≤ countWithKey matched "undefined"
      ∧ ("undefined", JsVal.num (countWithKey matched "undefined"))
          ∈ detectDuplicates (countByCourse matched) := by
  have hle : countAbsentCourse matched ≤ countWithKey matched "undefined" := by
    rw [countAbsentCourse, countWithKey]
    apply List.countP_mono_left
    intro r hr hp
    rw [decide_eq_true_eq] at hp
    simp [hp, jsKey]
  refine ⟨rfl, hle, ?_⟩
  rw [mem_detectDuplicates_iff_nonproto matched "undefined" (by decide)]
  exact ⟨rfl, by omega⟩

/-- Witness for C10: two records without a `course_id` yield the
duplicate `("undefined", 2)`. -/
theorem C10_witness :
    jsKey none = "undefined"
      ∧ countAbsentCourse exAbsentCourses
          ≤ countWithKey exAbsentCourses "undefined"
      ∧ ("undefined", JsVal.num (countWithKey exAbsentCourses "undefined"))
          ∈ detectDuplicates (countByCourse exAbsentCourses) :=
  C10_undefined_key exAbsentCourses (by decide)

end Scanner
